import Mathlib

/-!
Verification of the reconciliation-and-notification core of `main.py`.

The embedding follows the source:
* `Schema.init` embeds `Schema.__init__` (row normalization, lines 37-42);
* `Test` embeds the `Test` ORM row (lines 50-60), the store is a list of rows
  keyed by `id`;
* `dbMergeO` embeds `db.merge(Test(**asdict(row)))` followed by `db.commit()`
  (merge by primary key; attributes absent from the transient object, here
  `is_notified`, are left untouched on the persistent row);
* `processRow` / `processRows` embed the body of `_save_to_db` (lines 103-112),
  with the Telegram notifier as an oracle `notifOk` saying whether
  `telegram_bot.send_message` succeeds, and `today` a parameter standing for
  `datetime.date.today()`.

Numbers: Python `int` is modelled as `ℤ`, Python `float` as `ℚ` (exact
arithmetic; `round(x, 2)` is modelled as exact half-to-even rounding at two
decimals). `int(...)` and `float(...)` are modelled on their decimal literal
forms (optional sign, digits, fraction, exponent after whitespace stripping);
underscore grouping, `inf`/`nan` and hex floats are outside the model.
Exceptions: `Err.indexError` is Python `IndexError`, `Err.valueError` is
Python `ValueError` (the spec's `MalformedField`), `Err.notifyError` is a
failure raised by the Telegram send call.
-/

/-- Characters of a decimal digit run to the number they denote. -/
def digitsToNat (l : List Char) : ℕ :=
  l.foldl (fun a c => a * 10 + (c.toNat - '0'.toNat)) 0

/-- Strip leading and trailing whitespace, as Python `int()`/`float()` do. -/
def stripWs (l : List Char) : List Char :=
  ((l.dropWhile Char.isWhitespace).reverse.dropWhile Char.isWhitespace).reverse

/-- An optional leading sign: `true` means negative. -/
def readSign : List Char → Bool × List Char
  | '-' :: r => (true, r)
  | '+' :: r => (false, r)
  | r => (false, r)

/-- Python `int(s)` on decimal literals: optional sign then digits. -/
def pyInt (s : String) : Option ℤ :=
  let p := readSign (stripWs s.toList)
  if p.2.isEmpty || !p.2.all Char.isDigit then none
  else if p.1 then some (-(digitsToNat p.2 : ℤ)) else some (digitsToNat p.2 : ℤ)

/-- Longest leading digit run and the rest. -/
def takeDigits : List Char → List Char × List Char
  | [] => ([], [])
  | c :: rest =>
    if c.isDigit then
      let p := takeDigits rest
      (c :: p.1, p.2)
    else ([], c :: rest)

/-- The pieces of a Python float literal: sign, integer digits, fraction
digits, exponent sign, exponent digits. -/
structure FloatLit where
  neg : Bool
  ip : List Char
  fp : List Char
  eneg : Bool
  ed : List Char
deriving DecidableEq

/-- Exponent suffix `[+-]?digits` of a float literal. -/
def pyExpParse (neg : Bool) (ip fp : List Char) (r : List Char) : Option FloatLit :=
  let sp := readSign r
  let d := takeDigits sp.2
  if d.1.isEmpty || !d.2.isEmpty then none
  else some ⟨neg, ip, fp, sp.1, d.1⟩

/-- Decompose a Python float literal:
optional sign, digits with optional fraction, optional exponent. -/
def pyFloatParse (s : String) : Option FloatLit :=
  let sp := readSign (stripWs s.toList)
  let ip := takeDigits sp.2
  let fp : List Char × List Char :=
    match ip.2 with
    | '.' :: r => takeDigits r
    | r => ([], r)
  if ip.1.isEmpty && fp.1.isEmpty then none
  else
    match fp.2 with
    | [] => some ⟨sp.1, ip.1, fp.1, false, []⟩
    | 'e' :: r => pyExpParse sp.1 ip.1 fp.1 r
    | 'E' :: r => pyExpParse sp.1 ip.1 fp.1 r
    | _ => none

/-- The rational value a float literal denotes. -/
def floatVal (f : FloatLit) : ℚ :=
  let mant : ℚ := (digitsToNat (f.ip ++ f.fp) : ℚ) / (10 : ℚ) ^ f.fp.length
  let mant := if f.neg then -mant else mant
  if f.eneg then mant / (10 : ℚ) ^ digitsToNat f.ed
  else mant * (10 : ℚ) ^ digitsToNat f.ed

/-- Python `float(s)` on decimal literals (exact value, no binary rounding). -/
def pyFloat (s : String) : Option ℚ :=
  (pyFloatParse s).map floatVal

/-- Round a rational to an integer, ties to even (Python `round` semantics). -/
def roundHalfEven (q : ℚ) : ℤ :=
  if q - ⌊q⌋ = (1 : ℚ) / 2 then (if ⌊q⌋ % 2 = 0 then ⌊q⌋ else ⌊q⌋ + 1)
  else round q

/-- Python `round(x, 2)` modelled exactly on rationals. -/
def pyRound2 (q : ℚ) : ℚ := (roundHalfEven (q * 100) : ℚ) / 100

/-- Calendar date, no time component (`datetime.date`). -/
structure Date where
  year : ℕ
  month : ℕ
  day : ℕ
deriving DecidableEq

/-- Strict date comparison `a < b` (lexicographic on year, month, day). -/
def Date.ltb (a b : Date) : Bool :=
  decide (a.year < b.year) ||
    (decide (a.year = b.year) &&
      (decide (a.month < b.month) ||
        (decide (a.month = b.month) && decide (a.day < b.day))))

/-- Gregorian leap year, as `datetime` uses. -/
def isLeap (y : ℕ) : Bool := y % 4 = 0 && (y % 100 != 0 || y % 400 = 0)

/-- Days in a month of a year, as `datetime.date` validates. -/
def daysInMonth (y m : ℕ) : ℕ :=
  if m = 2 then (if isLeap y then 29 else 28)
  else if m = 4 ∨ m = 6 ∨ m = 9 ∨ m = 11 then 30
  else 31

/-- Split a character list at every dot, like `"a.b.c".split(".")`. -/
def splitDots : List Char → List (List Char)
  | [] => [[]]
  | c :: rest =>
    if c = '.' then [] :: splitDots rest
    else
      match splitDots rest with
      | h :: t => (c :: h) :: t
      | [] => [[c]]

/-- A `%d` or `%m` field: one or two digits with a value in `[lo, hi]`. -/
def twoDigitField (l : List Char) (lo hi : ℕ) : Option ℕ :=
  if l.isEmpty || decide (2 < l.length) || !l.all Char.isDigit then none
  else if lo ≤ digitsToNat l ∧ digitsToNat l ≤ hi then some (digitsToNat l)
  else none

/-- A `%Y` field: exactly four digits. -/
def yearField (l : List Char) : Option ℕ :=
  if l.length = 4 && l.all Char.isDigit then some (digitsToNat l) else none

/-- The `%d` field, CPython's regex `3[01]|[12]\d|0[1-9]|[1-9]| [1-9]`:
one or two digits valued 1..31, or a space followed by one nonzero digit
(space-padded single-digit day). -/
def dayField (l : List Char) : Option ℕ :=
  match l with
  | [' ', c] => twoDigitField [c] 1 9
  | _ => twoDigitField l 1 31

/-- `datetime.datetime.strptime(s, "%d.%m.%Y").date()`:
day (`%d`: 1-2 digits valued 1..31, or space then a nonzero digit), dot,
month (`%m`: 1-2 digits, 1..12), dot, year (`%Y`: exactly 4 digits); then
`datetime.date` validates the year is positive and the day fits the
month. -/
def pyStrptimeDMY (s : String) : Option Date :=
  match splitDots s.toList with
  | [ds, ms, ys] =>
    match dayField ds, twoDigitField ms 1 12, yearField ys with
    | some d, some m, some y =>
      if 1 ≤ y ∧ d ≤ daysInMonth y m then some ⟨y, m, d⟩ else none
    | _, _, _ => none
  | _ => none

/-- Python exceptions the per-row pipeline can raise. -/
inductive Err where
  | indexError : Err
  | valueError : Err
  | notifyError : Err
deriving DecidableEq

/-- `args[i]`: the field, or `IndexError` when the row is too short. -/
def arg (args : List String) (i : ℕ) : Except Err String :=
  match args.get? i with
  | some s => .ok s
  | none => .error .indexError

/-- The normalized record produced by `Schema.__init__` (lines 28-42). -/
structure Schema where
  id : ℤ
  order_id : ℤ
  cost_usd : ℚ
  cost_rur : ℚ
  delivery_date : Date
deriving DecidableEq

/-- `Schema.__init__(usd_rate, *args)`, lines 37-42, in Python evaluation
order: `int(args[0])`, `int(args[1])`, `float(args[2])`,
`round(cost_usd * usd_rate, 2)`, `strptime(args[3], "%d.%m.%Y").date()`. -/
def Schema.init (usd_rate : ℚ) (args : List String) : Except Err Schema :=
  match arg args 0 with
  | .error e => .error e
  | .ok a0 =>
    match pyInt a0 with
    | none => .error .valueError
    | some i =>
      match arg args 1 with
      | .error e => .error e
      | .ok a1 =>
        match pyInt a1 with
        | none => .error .valueError
        | some oid =>
          match arg args 2 with
          | .error e => .error e
          | .ok a2 =>
            match pyFloat a2 with
            | none => .error .valueError
            | some c =>
              match arg args 3 with
              | .error e => .error e
              | .ok a3 =>
                match pyStrptimeDMY a3 with
                | none => .error .valueError
                | some dd =>
                  .ok { id := i, order_id := oid, cost_usd := c,
                        cost_rur := pyRound2 (c * usd_rate),
                        delivery_date := dd }

/-- A persisted row of the `test` table (ORM class `Test`, lines 50-60).
`is_notified` has column default `false` at insert time. -/
structure Test where
  id : ℤ
  order_id : ℤ
  cost_usd : ℚ
  cost_rur : ℚ
  delivery_date : Date
  is_notified : Bool
deriving DecidableEq

/-- Primary-key lookup in the store. -/
def dbGet : List Test → ℤ → Option Test
  | [], _ => none
  | t :: ts, i => if t.id = i then some t else dbGet ts i

/-- A freshly inserted row: `is_notified` takes its column default `false`. -/
def newTest (r : Schema) : Test :=
  { id := r.id, order_id := r.order_id, cost_usd := r.cost_usd,
    cost_rur := r.cost_rur, delivery_date := r.delivery_date,
    is_notified := false }

/-- Merge the transient `Test(**asdict(row))` into an existing persistent row:
every `Schema` attribute is copied, `is_notified` is absent from the transient
object and therefore left untouched. -/
def mergeRow (t : Test) (r : Schema) : Test :=
  { id := r.id, order_id := r.order_id, cost_usd := r.cost_usd,
    cost_rur := r.cost_rur, delivery_date := r.delivery_date,
    is_notified := t.is_notified }

/-- `db.merge(Test(**asdict(row)))` followed by `db.commit()` (lines 104-105):
the updated store together with the persistent object `obj` the merge
returns. -/
def dbMergeO : List Test → Schema → List Test × Test
  | [], r => ([newTest r], newTest r)
  | t :: ts, r =>
    if t.id = r.id then (mergeRow t r :: ts, mergeRow t r)
    else
      let p := dbMergeO ts r
      (t :: p.1, p.2)

/-- `obj.is_notified = True` followed by `db.commit()` (lines 111-112). -/
def setNotified : List Test → ℤ → List Test
  | [], _ => []
  | t :: ts, i =>
    (if t.id = i then { t with is_notified := true } else t) :: setNotified ts i

/-- Observable actions of one cycle: a committed upsert, a Telegram
notification attempt with the order id and delivery date, and the committed
`is_notified` flag update. -/
inductive Event where
  | upsertCommit : Test → Event
  | notify : ℤ → Date → Event
  | flagCommit : ℤ → Event
deriving DecidableEq

/-- The body of the `for` loop of `_save_to_db` (lines 104-112) for one
normalized row: merge and commit, then, if the stored flag is unset and the
delivery date is strictly before `today`, call the notifier; if the call
succeeds, set the flag and commit again; if it raises, the flag commit never
happens and the exception aborts the cycle. Returns the new store, the events
in order, and the exception if one was raised. -/
def processRow (notifOk : ℤ → Date → Bool) (today : Date)
    (db : List Test) (r : Schema) : List Test × List Event × Option Err :=
  let p := dbMergeO db r
  let obj := p.2
  if !obj.is_notified && Date.ltb obj.delivery_date today then
    if notifOk obj.id obj.delivery_date then
      (setNotified p.1 obj.id,
       [Event.upsertCommit obj, Event.notify obj.id obj.delivery_date,
        Event.flagCommit obj.id], none)
    else
      (p.1, [Event.upsertCommit obj, Event.notify obj.id obj.delivery_date],
       some Err.notifyError)
  else (p.1, [Event.upsertCommit obj], none)

/-- The loop of `_save_to_db` over already-header-stripped rows: each raw row
is normalized lazily by the generator expression on line 103 just before its
iteration; any exception (normalization, notifier) propagates and stops the
loop, earlier commits staying in place. -/
def processRows (notifOk : ℤ → Date → Bool) (today : Date) (usd_rate : ℚ)
    (db : List Test) : List (List String) → List Test × List Event × Option Err
  | [] => (db, [], none)
  | row :: rest =>
    match Schema.init usd_rate row with
    | .error e => (db, [], some e)
    | .ok r =>
      let q := processRow notifOk today db r
      match q.2.2 with
      | some e => (q.1, q.2.1, some e)
      | none =>
        let w := processRows notifOk today usd_rate q.1 rest
        (w.1, q.2.1 ++ w.2.1, w.2.2)

/-- `_save_to_db(db, rows, usd_rate)` (lines 95-112): `rows[1:]` drops the
header row, then the per-row loop runs. -/
def save_to_db (notifOk : ℤ → Date → Bool) (today : Date)
    (db : List Test) (rows : List (List String)) (usd_rate : ℚ) :
    List Test × List Event × Option Err :=
  processRows notifOk today usd_rate db (rows.drop 1)

theorem mergeRow_newTest (r : Schema) : mergeRow (newTest r) r = newTest r := rfl

theorem mergeRow_id (t : Schema) (u : Test) : (mergeRow u t).id = t.id := rfl

/-- The object returned by `db.merge` carries the row's fields and the
pre-existing flag (`false` for a fresh insert). -/
theorem dbMergeO_obj (db : List Test) (r : Schema) :
    (dbMergeO db r).2 = mergeRow ((dbGet db r.id).getD (newTest r)) r := by
  induction db with
  | nil => simp [dbMergeO, dbGet, mergeRow_newTest]
  | cons t ts ih =>
    by_cases h : t.id = r.id
    · simp [dbMergeO, dbGet, h]
    · simp [dbMergeO, dbGet, h, ih]

/-- Lookup of the merged id in the merged store gives the merge result. -/
theorem dbGet_dbMergeO_self (db : List Test) (r : Schema) :
    dbGet (dbMergeO db r).1 r.id = some (dbMergeO db r).2 := by
  induction db with
  | nil => simp [dbMergeO, dbGet, newTest]
  | cons t ts ih =>
    by_cases h : t.id = r.id
    · simp [dbMergeO, dbGet, h, mergeRow]
    · simp [dbMergeO, dbGet, h, ih]

/-- Merging one row leaves every other id untouched. -/
theorem dbGet_dbMergeO_ne (db : List Test) (r : Schema) (i : ℤ)
    (hne : i ≠ r.id) : dbGet (dbMergeO db r).1 i = dbGet db i := by
  induction db with
  | nil => simp [dbMergeO, dbGet, newTest, Ne.symm hne]
  | cons t ts ih =>
    by_cases h : t.id = r.id
    · simp [dbMergeO, dbGet, h, mergeRow, Ne.symm hne]
    · by_cases h2 : t.id = i
      · simp [dbMergeO, dbGet, h, h2, hne]
      · simp [dbMergeO, dbGet, h, h2, ih]

/-- The flag commit sets `is_notified` on the committed id. -/
theorem dbGet_setNotified_self (db : List Test) (i : ℤ) :
    dbGet (setNotified db i) i =
      (dbGet db i).map (fun t => { t with is_notified := true }) := by
  induction db with
  | nil => simp [setNotified, dbGet]
  | cons t ts ih =>
    by_cases h : t.id = i
    · simp [setNotified, dbGet, h]
    · simp [setNotified, dbGet, h, ih]

/-- The flag commit leaves every other id untouched. -/
theorem dbGet_setNotified_ne (db : List Test) (i j : ℤ) (hne : j ≠ i) :
    dbGet (setNotified db i) j = dbGet db j := by
  induction db with
  | nil => simp [setNotified, dbGet]
  | cons t ts ih =>
    by_cases h : t.id = i
    · simp [setNotified, dbGet, h, hne, Ne.symm hne, ih]
    · by_cases h2 : t.id = j
      · simp [setNotified, dbGet, h, h2, hne, Ne.symm hne]
      · simp [setNotified, dbGet, h, h2, ih]

/-- The store a row step leaves behind is the merged store, possibly with
the flag commit applied to the merged id. -/
theorem processRow_db (nk : ℤ → Date → Bool) (td : Date) (db : List Test)
    (r : Schema) :
    (processRow nk td db r).1 = (dbMergeO db r).1 ∨
      (processRow nk td db r).1 =
        setNotified (dbMergeO db r).1 (dbMergeO db r).2.id := by
  unfold processRow
  simp only []
  split_ifs <;> simp

/-- A record whose flag is already set keeps a set flag across a merge. -/
theorem dbMergeO_preserves_true (db : List Test) (r : Schema) (i : ℤ)
    (t : Test) (h : dbGet db i = some t) (hn : t.is_notified = true) :
    ∃ u, dbGet (dbMergeO db r).1 i = some u ∧ u.is_notified = true := by
  by_cases hi : i = r.id
  · subst hi
    refine ⟨(dbMergeO db r).2, dbGet_dbMergeO_self db r, ?_⟩
    rw [dbMergeO_obj, h]
    simpa [mergeRow] using hn
  · exact ⟨t, by rw [dbGet_dbMergeO_ne db r i hi]; exact h, hn⟩

/-- The flag commit never unsets a flag. -/
theorem setNotified_preserves_true (db : List Test) (i j : ℤ) (u : Test)
    (h : dbGet db j = some u) (hn : u.is_notified = true) :
    ∃ v, dbGet (setNotified db i) j = some v ∧ v.is_notified = true := by
  by_cases hj : j = i
  · subst hj
    rw [dbGet_setNotified_self, h]
    exact ⟨_, rfl, rfl⟩
  · rw [dbGet_setNotified_ne db i j hj, h]
    exact ⟨u, rfl, hn⟩

/-- One row step never unsets a stored flag. -/
theorem processRow_preserves_true (nk : ℤ → Date → Bool) (td : Date)
    (db : List Test) (r : Schema) (i : ℤ) (t : Test)
    (h : dbGet db i = some t) (hn : t.is_notified = true) :
    ∃ u, dbGet (processRow nk td db r).1 i = some u ∧ u.is_notified = true := by
  obtain ⟨u, hu, hun⟩ := dbMergeO_preserves_true db r i t h hn
  rcases processRow_db nk td db r with hd | hd
  · exact ⟨u, by rw [hd]; exact hu, hun⟩
  · rw [hd]
    exact setNotified_preserves_true _ _ _ u hu hun

/-- A whole cycle never unsets a stored flag. -/
theorem processRows_preserves_true (nk : ℤ → Date → Bool) (td : Date)
    (rate : ℚ) (rows : List (List String)) :
    ∀ (db : List Test) (i : ℤ) (t : Test), dbGet db i = some t →
      t.is_notified = true →
      ∃ u, dbGet (processRows nk td rate db rows).1 i = some u ∧
        u.is_notified = true := by
  induction rows with
  | nil => exact fun db i t h hn => ⟨t, h, hn⟩
  | cons row rest ih =>
    intro db i t h hn
    cases hs : Schema.init rate row with
    | error e =>
      simp only [processRows, hs]
      exact ⟨t, h, hn⟩
    | ok r =>
      obtain ⟨u, hu, hun⟩ := processRow_preserves_true nk td db r i t h hn
      simp only [processRows, hs]
      cases hq : (processRow nk td db r).2.2 with
      | some e => exact ⟨u, hu, hun⟩
      | none =>
        obtain ⟨v, hv, hvn⟩ := ih (processRow nk td db r).1 i u hu hun
        exact ⟨v, hv, hvn⟩

/-- Splitting a cycle's row list: the second part runs on the first part's
final store when the first part raised nothing, and is never reached when the
first part raised. -/
theorem processRows_append (nk : ℤ → Date → Bool) (td : Date) (rate : ℚ) :
    ∀ (pre rest : List (List String)) (db : List Test),
      processRows nk td rate db (pre ++ rest) =
        match (processRows nk td rate db pre).2.2 with
        | some _ => processRows nk td rate db pre
        | none =>
          ((processRows nk td rate (processRows nk td rate db pre).1 rest).1,
           (processRows nk td rate db pre).2.1 ++
             (processRows nk td rate (processRows nk td rate db pre).1
               rest).2.1,
           (processRows nk td rate (processRows nk td rate db pre).1
             rest).2.2) := by
  intro pre
  induction pre with
  | nil => intro rest db; simp [processRows]
  | cons row pre ih =>
    intro rest db
    simp only [List.cons_append, processRows]
    cases hs : Schema.init rate row with
    | error e0 => simp
    | ok r =>
      cases hq : (processRow nk td db r).2.2 with
      | some e0 => simp [hq]
      | none =>
        simp only [hq, List.append_eq]
        rw [ih rest (processRow nk td db r).1]
        cases hw : (processRows nk td rate (processRow nk td db r).1 pre).2.2 with
        | some e => simp [hw]
        | none => simp [hw, List.append_assoc]
/-- A malformed row raises while the generator normalizes it: nothing is
written for it and the loop stops with the store as it was. -/
theorem processRows_malformed_abort (nk : ℤ → Date → Bool) (td : Date)
    (rate : ℚ) (row : List String) (rest : List (List String))
    (db : List Test) (e : Err) (hs : Schema.init rate row = .error e) :
    processRows nk td rate db (row :: rest) = (db, [], some e) := by
  simp [processRows, hs]

/-- When a row's processing raises after normalization, the loop stops with
that row's partial effects and the remaining rows are never examined. -/
theorem processRows_rowfail_abort (nk : ℤ → Date → Bool) (td : Date)
    (rate : ℚ) (row : List String) (rest : List (List String))
    (db : List Test) (r : Schema) (e : Err)
    (hs : Schema.init rate row = .ok r)
    (hq : (processRow nk td db r).2.2 = some e) :
    processRows nk td rate db (row :: rest) =
      ((processRow nk td db r).1, (processRow nk td db r).2.1, some e) := by
  simp [processRows, hs, hq]

/-- `roundHalfEven` is the identity on integers. -/
theorem roundHalfEven_intCast (n : ℤ) : roundHalfEven (n : ℚ) = n := by
  unfold roundHalfEven
  rw [Int.floor_intCast]
  have h : (n : ℚ) - n = 0 := by ring
  rw [h]
  norm_num

/-- `pyRound2` is the identity on integer values. -/
theorem pyRound2_intCast (n : ℤ) : pyRound2 (n : ℚ) = (n : ℚ) := by
  unfold pyRound2
  have h : (n : ℚ) * 100 = ((n * 100 : ℤ) : ℚ) := by push_cast; ring
  rw [h, roundHalfEven_intCast]
  push_cast
  field_simp

theorem pyFloat_50 : pyFloat "50.00" = some 50 := by
  have h : pyFloatParse "50.00" = some ⟨false, ['5', '0'], ['0', '0'], false, []⟩ := by
    decide
  have hd : digitsToNat ['5', '0', '0', '0'] = 5000 := by decide
  have hz : digitsToNat ([] : List Char) = 0 := by decide
  simp [pyFloat, h, floatVal, hd, hz]
  norm_num

theorem pyFloat_neg5 : pyFloat "-5.0" = some (-5) := by
  have h : pyFloatParse "-5.0" = some ⟨true, ['5'], ['0'], false, []⟩ := by
    decide
  have hd : digitsToNat ['5', '0'] = 50 := by decide
  have hz : digitsToNat ([] : List Char) = 0 := by decide
  simp [pyFloat, h, floatVal, hd, hz]
  norm_num

theorem pyRound2_50_90 : pyRound2 (50 * 90) = 4500 := by
  have h : ((50 : ℚ) * 90) = ((4500 : ℤ) : ℚ) := by norm_num
  rw [h, pyRound2_intCast]
  norm_num

/-- A success of `Schema.__init__` on a four-field row, in terms of the four
field parsers. -/
theorem schema_init_ok (rate : ℚ) (a0 a1 a2 a3 : String) (i oid : ℤ)
    (c : ℚ) (d : Date) (h0 : pyInt a0 = some i) (h1 : pyInt a1 = some oid)
    (h2 : pyFloat a2 = some c) (h3 : pyStrptimeDMY a3 = some d) :
    Schema.init rate [a0, a1, a2, a3] =
      .ok { id := i, order_id := oid, cost_usd := c,
            cost_rur := pyRound2 (c * rate), delivery_date := d } := by
  simp only [Schema.init, arg, List.get?, h0, h1, h2, h3]

/-- C1: the stored `notified` flag is monotone under every operation:
merging a row whose id already exists returns and stores a record carrying
the row's `orderNumber`, `costUsd`, `costLocal` and `deliveryDate` with the
stored flag untouched, and across any whole cycle a record whose stored flag
is `true` keeps a `true` flag. -/
theorem notified_monotone :
    (∀ (db : List Test) (r : Schema) (t : Test), dbGet db r.id = some t →
      (dbMergeO db r).2 = mergeRow t r ∧
      dbGet (dbMergeO db r).1 r.id = some (mergeRow t r) ∧
      (mergeRow t r).is_notified = t.is_notified ∧
      (mergeRow t r).order_id = r.order_id ∧
      (mergeRow t r).cost_usd = r.cost_usd ∧
      (mergeRow t r).cost_rur = r.cost_rur ∧
      (mergeRow t r).delivery_date = r.delivery_date) ∧
    (∀ (nk : ℤ → Date → Bool) (td : Date) (rate : ℚ)
      (rows : List (List String)) (db : List Test) (i : ℤ) (t : Test),
      dbGet db i = some t → t.is_notified = true →
      ∃ u, dbGet (processRows nk td rate db rows).1 i = some u ∧
        u.is_notified = true) := by
  constructor
  · intro db r t h
    have ho : (dbMergeO db r).2 = mergeRow t r := by
      rw [dbMergeO_obj, h]
      rfl
    refine ⟨ho, ?_, rfl, rfl, rfl, rfl, rfl⟩
    rw [← ho]
    exact dbGet_dbMergeO_self db r
  · intro nk td rate rows db i t h hn
    exact processRows_preserves_true nk td rate rows db i t h hn

/-- Witness for C1 at a concrete store, row and cycle. -/
theorem notified_monotone_witness :
    (dbMergeO
        [({ id := 7, order_id := 1, cost_usd := 10, cost_rur := 20,
            delivery_date := ⟨2020, 1, 1⟩, is_notified := true } : Test)]
        ({ id := 7, order_id := 2, cost_usd := 30, cost_rur := 40,
           delivery_date := ⟨2021, 2, 2⟩ } : Schema)).2 =
      mergeRow
        { id := 7, order_id := 1, cost_usd := 10, cost_rur := 20,
          delivery_date := ⟨2020, 1, 1⟩, is_notified := true }
        { id := 7, order_id := 2, cost_usd := 30, cost_rur := 40,
          delivery_date := ⟨2021, 2, 2⟩ } ∧
    ∃ u, dbGet
        (processRows (fun _ _ => true) ⟨2022, 1, 1⟩ 1
          [({ id := 7, order_id := 1, cost_usd := 10, cost_rur := 20,
              delivery_date := ⟨2020, 1, 1⟩, is_notified := true } : Test)]
          [["8", "1", "1", "02.01.2020"]]).1 7 = some u ∧
      u.is_notified = true := by
  constructor
  · exact (notified_monotone.1
      [{ id := 7, order_id := 1, cost_usd := 10, cost_rur := 20,
         delivery_date := ⟨2020, 1, 1⟩, is_notified := true }]
      { id := 7, order_id := 2, cost_usd := 30, cost_rur := 40,
        delivery_date := ⟨2021, 2, 2⟩ }
      { id := 7, order_id := 1, cost_usd := 10, cost_rur := 20,
        delivery_date := ⟨2020, 1, 1⟩, is_notified := true } rfl).1
  · exact notified_monotone.2 (fun _ _ => true) ⟨2022, 1, 1⟩ 1
      [["8", "1", "1", "02.01.2020"]]
      [{ id := 7, order_id := 1, cost_usd := 10, cost_rur := 20,
         delivery_date := ⟨2020, 1, 1⟩, is_notified := true }] 7
      { id := 7, order_id := 1, cost_usd := 10, cost_rur := 20,
        delivery_date := ⟨2020, 1, 1⟩, is_notified := true } rfl rfl

/-- C8: upserting the same normalized record twice in succession yields the
same persisted state and the same returned object as upserting it once; in
particular the second upsert leaves the `notified` flag unchanged. -/
theorem upsert_idempotent (db : List Test) (r : Schema) :
    dbMergeO (dbMergeO db r).1 r = ((dbMergeO db r).1, (dbMergeO db r).2) ∧
    ((dbMergeO (dbMergeO db r).1 r).2).is_notified =
      ((dbMergeO db r).2).is_notified := by
  have h : dbMergeO (dbMergeO db r).1 r =
      ((dbMergeO db r).1, (dbMergeO db r).2) := by
    induction db with
    | nil => simp [dbMergeO, mergeRow, newTest]
    | cons t ts ih =>
      by_cases ht : t.id = r.id
      · simp [dbMergeO, ht, mergeRow]
      · simp [dbMergeO, ht, ih]
  exact ⟨h, by rw [h]⟩

/-- C9: within one cycle rows run sequentially in source order, each row's
commit happening before the next row is examined: the tail of a split row
list runs on the prefix's final store; a failing row (malformed, or raising
during its processing) leaves the prefix's committed state as the final
store and stops the cycle before any later row. -/
theorem rows_sequential_abort :
    (∀ (nk : ℤ → Date → Bool) (td : Date) (rate : ℚ)
      (pre rest : List (List String)) (db : List Test),
      processRows nk td rate db (pre ++ rest) =
        match (processRows nk td rate db pre).2.2 with
        | some _ => processRows nk td rate db pre
        | none =>
          ((processRows nk td rate (processRows nk td rate db pre).1 rest).1,
           (processRows nk td rate db pre).2.1 ++
             (processRows nk td rate (processRows nk td rate db pre).1
               rest).2.1,
           (processRows nk td rate (processRows nk td rate db pre).1
             rest).2.2)) ∧
    (∀ (nk : ℤ → Date → Bool) (td : Date) (rate : ℚ) (row : List String)
      (rest : List (List String)) (db : List Test) (e : Err),
      Schema.init rate row = .error e →
      processRows nk td rate db (row :: rest) = (db, [], some e)) ∧
    (∀ (nk : ℤ → Date → Bool) (td : Date) (rate : ℚ) (row : List String)
      (rest : List (List String)) (db : List Test) (r : Schema) (e : Err),
      Schema.init rate row = .ok r →
      (processRow nk td db r).2.2 = some e →
      processRows nk td rate db (row :: rest) =
        ((processRow nk td db r).1, (processRow nk td db r).2.1, some e)) :=
  ⟨fun nk td rate pre rest db => processRows_append nk td rate pre rest db,
   fun nk td rate row rest db e hs =>
     processRows_malformed_abort nk td rate row rest db e hs,
   fun nk td rate row rest db r e hs hq =>
     processRows_rowfail_abort nk td rate row rest db r e hs hq⟩

/-- Witness for C9: a malformed second row stops the cycle with the store
as the first row left it. -/
theorem rows_sequential_abort_witness :
    processRows (fun _ _ => true) ⟨2019, 1, 1⟩ 1 []
      [["x", "1", "1.0", "01.01.2020"], ["2", "3", "4.0", "02.01.2020"]] =
      ([], [], some Err.valueError) :=
  rows_sequential_abort.2.1 (fun _ _ => true) ⟨2019, 1, 1⟩ 1
    ["x", "1", "1.0", "01.01.2020"] [["2", "3", "4.0", "02.01.2020"]] []
    Err.valueError rfl

/-- A date is never strictly before itself. -/
theorem Date.ltb_irrefl (d : Date) : Date.ltb d d = false := by
  simp [Date.ltb]

/-- The merged object's id is the row's id. -/
theorem dbMergeO_obj_id (db : List Test) (r : Schema) :
    (dbMergeO db r).2.id = r.id := by
  rw [dbMergeO_obj]
  rfl

/-- Row step, expired-and-unnotified case, notifier succeeds: flag commit. -/
theorem processRow_pos (nk : ℤ → Date → Bool) (td : Date) (db : List Test)
    (r : Schema)
    (hc : (!(dbMergeO db r).2.is_notified &&
      Date.ltb (dbMergeO db r).2.delivery_date td) = true)
    (hk : nk (dbMergeO db r).2.id (dbMergeO db r).2.delivery_date = true) :
    processRow nk td db r =
      (setNotified (dbMergeO db r).1 (dbMergeO db r).2.id,
       [Event.upsertCommit (dbMergeO db r).2,
        Event.notify (dbMergeO db r).2.id (dbMergeO db r).2.delivery_date,
        Event.flagCommit (dbMergeO db r).2.id], none) := by
  unfold processRow
  simp only []
  rw [if_pos hc, if_pos hk]

/-- Row step, expired-and-unnotified case, notifier raises: no flag commit,
the exception propagates. -/
theorem processRow_posfail (nk : ℤ → Date → Bool) (td : Date) (db : List Test)
    (r : Schema)
    (hc : (!(dbMergeO db r).2.is_notified &&
      Date.ltb (dbMergeO db r).2.delivery_date td) = true)
    (hk : nk (dbMergeO db r).2.id (dbMergeO db r).2.delivery_date = false) :
    processRow nk td db r =
      ((dbMergeO db r).1,
       [Event.upsertCommit (dbMergeO db r).2,
        Event.notify (dbMergeO db r).2.id (dbMergeO db r).2.delivery_date],
       some Err.notifyError) := by
  unfold processRow
  simp only []
  rw [if_pos hc, if_neg (by simp [hk])]

/-- Row step, no expiration: no notifier call, no flag write. -/
theorem processRow_neg (nk : ℤ → Date → Bool) (td : Date) (db : List Test)
    (r : Schema)
    (hc : (!(dbMergeO db r).2.is_notified &&
      Date.ltb (dbMergeO db r).2.delivery_date td) = false) :
    processRow nk td db r =
      ((dbMergeO db r).1, [Event.upsertCommit (dbMergeO db r).2], none) := by
  unfold processRow
  simp only []
  rw [if_neg (by simp [hc])]

/-- C2: evaluated immediately after the upsert commit on the merged
object: when its stored flag is false and its delivery date is strictly
before today, the notifier is invoked exactly once with the record's id and
delivery date, and only when that call returns successfully is the flag
committed, in a separate second commit that makes the stored flag true; when
the condition fails — in particular when the delivery date equals today —
the notifier is not invoked and no flag is written. -/
theorem expiration_decision (nk : ℤ → Date → Bool) (td : Date)
    (db : List Test) (r : Schema) :
    (((dbMergeO db r).2.is_notified = false ∧
        Date.ltb (dbMergeO db r).2.delivery_date td = true) →
      (processRow nk td db r).2.1.count
          (Event.notify (dbMergeO db r).2.id
            (dbMergeO db r).2.delivery_date) = 1 ∧
      (nk (dbMergeO db r).2.id (dbMergeO db r).2.delivery_date = true →
        processRow nk td db r =
          (setNotified (dbMergeO db r).1 (dbMergeO db r).2.id,
           [Event.upsertCommit (dbMergeO db r).2,
            Event.notify (dbMergeO db r).2.id
              (dbMergeO db r).2.delivery_date,
            Event.flagCommit (dbMergeO db r).2.id], none) ∧
        dbGet (processRow nk td db r).1 (dbMergeO db r).2.id =
          some { (dbMergeO db r).2 with is_notified := true })) ∧
    (¬((dbMergeO db r).2.is_notified = false ∧
        Date.ltb (dbMergeO db r).2.delivery_date td = true) →
      processRow nk td db r =
        ((dbMergeO db r).1, [Event.upsertCommit (dbMergeO db r).2], none)) ∧
    ((dbMergeO db r).2.delivery_date = td →
      processRow nk td db r =
        ((dbMergeO db r).1, [Event.upsertCommit (dbMergeO db r).2], none)) := by
  refine ⟨?_, ?_, ?_⟩
  · rintro ⟨h1, h2⟩
    have hc : (!(dbMergeO db r).2.is_notified &&
        Date.ltb (dbMergeO db r).2.delivery_date td) = true := by
      rw [h1, h2]
      rfl
    constructor
    · cases hk : nk (dbMergeO db r).2.id (dbMergeO db r).2.delivery_date with
      | false => rw [processRow_posfail nk td db r hc hk]; simp
      | true => rw [processRow_pos nk td db r hc hk]; simp
    · intro hk
      rw [processRow_pos nk td db r hc hk]
      refine ⟨rfl, ?_⟩
      rw [dbGet_setNotified_self]
      rw [dbMergeO_obj_id, dbGet_dbMergeO_self]
      rfl
  · intro h
    have hc : (!(dbMergeO db r).2.is_notified &&
        Date.ltb (dbMergeO db r).2.delivery_date td) = false := by
      cases hb : (dbMergeO db r).2.is_notified with
      | true => simp [hb]
      | false =>
        cases hl : Date.ltb (dbMergeO db r).2.delivery_date td with
        | false => simp [hb, hl]
        | true => exact absurd ⟨hb, hl⟩ h
    exact processRow_neg nk td db r hc
  · intro hd
    have hc : (!(dbMergeO db r).2.is_notified &&
        Date.ltb (dbMergeO db r).2.delivery_date td) = false := by
      rw [hd, Date.ltb_irrefl]
      simp
    exact processRow_neg nk td db r hc

/-- Witness for C2 on a freshly inserted overdue record. -/
theorem expiration_decision_witness :
    (processRow (fun _ _ => true) ⟨2020, 1, 2⟩ []
        ({ id := 7, order_id := 1001, cost_usd := 50, cost_rur := 4500,
           delivery_date := ⟨2020, 1, 1⟩ } : Schema)).2.1.count
      (Event.notify
        (dbMergeO []
          ({ id := 7, order_id := 1001, cost_usd := 50, cost_rur := 4500,
             delivery_date := ⟨2020, 1, 1⟩ } : Schema)).2.id
        (dbMergeO []
          ({ id := 7, order_id := 1001, cost_usd := 50, cost_rur := 4500,
             delivery_date := ⟨2020, 1, 1⟩ } : Schema)).2.delivery_date) = 1 :=
  ((expiration_decision (fun _ _ => true) ⟨2020, 1, 2⟩ []
    { id := 7, order_id := 1001, cost_usd := 50, cost_rur := 4500,
      delivery_date := ⟨2020, 1, 1⟩ }).1 ⟨rfl, by decide⟩).1

theorem mergeRow_mergeRow (t : Test) (r : Schema) :
    mergeRow (mergeRow t r) r = mergeRow t r := rfl

/-- Re-merging the same row immediately gives back the same object. -/
theorem dbMergeO_obj_again (db : List Test) (r : Schema) :
    (dbMergeO (dbMergeO db r).1 r).2 = (dbMergeO db r).2 := by
  rw [dbMergeO_obj (dbMergeO db r).1 r, dbGet_dbMergeO_self db r]
  simp only [Option.getD_some]
  rw [dbMergeO_obj db r]
  rfl

/-- C4: when the merged record is overdue and unnotified and the notifier
call raises, the flag commit is never performed — the store keeps the
merged record with `is_notified = false` and no flag-commit event occurs —
and on a later cycle with a succeeding notifier the same record is notified
(exactly one call) and only then flagged. -/
theorem notifier_failure_keeps_flag (nk : ℤ → Date → Bool) (td : Date)
    (db : List Test) (r : Schema)
    (h1 : (dbMergeO db r).2.is_notified = false)
    (h2 : Date.ltb (dbMergeO db r).2.delivery_date td = true)
    (h3 : nk (dbMergeO db r).2.id (dbMergeO db r).2.delivery_date = false) :
    processRow nk td db r =
      ((dbMergeO db r).1,
       [Event.upsertCommit (dbMergeO db r).2,
        Event.notify (dbMergeO db r).2.id (dbMergeO db r).2.delivery_date],
       some Err.notifyError) ∧
    dbGet (processRow nk td db r).1 (dbMergeO db r).2.id =
      some (dbMergeO db r).2 ∧
    (dbMergeO db r).2.is_notified = false ∧
    Event.flagCommit (dbMergeO db r).2.id ∉ (processRow nk td db r).2.1 ∧
    (∀ nk2 : ℤ → Date → Bool,
      nk2 (dbMergeO db r).2.id (dbMergeO db r).2.delivery_date = true →
      (processRow nk2 td (processRow nk td db r).1 r).2.1.count
          (Event.notify (dbMergeO db r).2.id
            (dbMergeO db r).2.delivery_date) = 1 ∧
      ∃ u, dbGet (processRow nk2 td (processRow nk td db r).1 r).1 r.id =
        some u ∧ u.is_notified = true) := by
  have hc : (!(dbMergeO db r).2.is_notified &&
      Date.ltb (dbMergeO db r).2.delivery_date td) = true := by
    rw [h1, h2]
    rfl
  have hp := processRow_posfail nk td db r hc h3
  refine ⟨hp, ?_, h1, ?_, ?_⟩
  · rw [hp]
    simp only []
    rw [dbMergeO_obj_id, dbGet_dbMergeO_self]
  · rw [hp]
    simp
  · intro nk2 hk2
    rw [hp]
    simp only []
    have hobj := dbMergeO_obj_again db r
    have hc2 : (!(dbMergeO (dbMergeO db r).1 r).2.is_notified &&
        Date.ltb (dbMergeO (dbMergeO db r).1 r).2.delivery_date td) = true := by
      rw [hobj, h1, h2]
      rfl
    have hk2b : nk2 (dbMergeO (dbMergeO db r).1 r).2.id
        (dbMergeO (dbMergeO db r).1 r).2.delivery_date = true := by
      rw [hobj]
      exact hk2
    rw [processRow_pos nk2 td (dbMergeO db r).1 r hc2 hk2b]
    constructor
    · rw [hobj]
      simp
    · simp only []
      rw [dbMergeO_obj_id, dbGet_setNotified_self, dbGet_dbMergeO_self]
      exact ⟨{ (dbMergeO (dbMergeO db r).1 r).2 with is_notified := true },
        rfl, rfl⟩

/-- Witness for C4 on a freshly inserted overdue record whose first
notification attempt fails. -/
theorem notifier_failure_keeps_flag_witness :
    dbGet
        (processRow (fun _ _ => false) ⟨2020, 1, 2⟩ []
          ({ id := 7, order_id := 1001, cost_usd := 50, cost_rur := 4500,
             delivery_date := ⟨2020, 1, 1⟩ } : Schema)).1
        (dbMergeO []
          ({ id := 7, order_id := 1001, cost_usd := 50, cost_rur := 4500,
             delivery_date := ⟨2020, 1, 1⟩ } : Schema)).2.id =
      some (dbMergeO []
        ({ id := 7, order_id := 1001, cost_usd := 50, cost_rur := 4500,
           delivery_date := ⟨2020, 1, 1⟩ } : Schema)).2 :=
  (notifier_failure_keeps_flag (fun _ _ => false) ⟨2020, 1, 2⟩ []
    { id := 7, order_id := 1001, cost_usd := 50, cost_rur := 4500,
      delivery_date := ⟨2020, 1, 1⟩ } rfl (by decide) rfl).2.1

/-- C5: normalization computes `costLocal = round(costUsd * rate, 2)` with
the rate passed to it (the rate in effect at ingestion); a later merge of a
different id never touches a stored record, so the stored value is only ever
recomputed by a new ingest of the same id; the spec's concrete scenario row
evaluates as stated. -/
theorem conversion_correct :
    (∀ (rate : ℚ) (args : List String) (r : Schema),
      Schema.init rate args = .ok r →
      r.cost_rur = pyRound2 (r.cost_usd * rate)) ∧
    (∀ (db : List Test) (r2 : Schema) (i : ℤ) (t : Test),
      dbGet db i = some t → r2.id ≠ i →
      dbGet (dbMergeO db r2).1 i = some t) ∧
    Schema.init 90 ["7", "1001", "50.00", "01.01.2020"] =
      .ok { id := 7, order_id := 1001, cost_usd := 50, cost_rur := 4500,
            delivery_date := ⟨2020, 1, 1⟩ } := by
  refine ⟨?_, ?_, ?_⟩
  · intro rate args r h
    unfold Schema.init at h
    repeat' split at h
    all_goals first
      | (injection h; done)
      | (injection h with h2; subst h2; rfl)
  · intro db r2 i t h hne
    rw [dbGet_dbMergeO_ne db r2 i (Ne.symm hne)]
    exact h
  · rw [schema_init_ok 90 "7" "1001" "50.00" "01.01.2020" 7 1001 50
      ⟨2020, 1, 1⟩ (by decide) (by decide) pyFloat_50 (by decide),
      pyRound2_50_90]

/-- Witness for C5: the scenario record's stored local cost is the rounded
product, and a merge of a different id leaves a stored record alone. -/
theorem conversion_correct_witness :
    (4500 : ℚ) = pyRound2 ((50 : ℚ) * 90) ∧
    dbGet
        (dbMergeO
          [({ id := 7, order_id := 1, cost_usd := 10, cost_rur := 20,
              delivery_date := ⟨2020, 1, 1⟩, is_notified := false } : Test)]
          ({ id := 8, order_id := 2, cost_usd := 30, cost_rur := 40,
             delivery_date := ⟨2021, 2, 2⟩ } : Schema)).1 7 =
      some { id := 7, order_id := 1, cost_usd := 10, cost_rur := 20,
             delivery_date := ⟨2020, 1, 1⟩, is_notified := false } := by
  constructor
  · exact conversion_correct.1 90 ["7", "1001", "50.00", "01.01.2020"]
      { id := 7, order_id := 1001, cost_usd := 50, cost_rur := 4500,
        delivery_date := ⟨2020, 1, 1⟩ } conversion_correct.2.2
  · exact conversion_correct.2.1
      [{ id := 7, order_id := 1, cost_usd := 10, cost_rur := 20,
         delivery_date := ⟨2020, 1, 1⟩, is_notified := false }]
      { id := 8, order_id := 2, cost_usd := 30, cost_rur := 40,
        delivery_date := ⟨2021, 2, 2⟩ } 7
      { id := 7, order_id := 1, cost_usd := 10, cost_rur := 20,
        delivery_date := ⟨2020, 1, 1⟩, is_notified := false } rfl (by decide)

/-- C3 counterexample: a batch with one malformed row followed by one valid
row persists nothing: the generator's exception aborts the whole loop, so
the valid row after the malformed one is never stored. -/
theorem malformed_isolation_counterexample :
    save_to_db (fun _ _ => true) ⟨2019, 1, 1⟩ []
        [["id", "order", "cost", "date"],
         ["x", "1", "1.0", "01.01.2020"],
         ["2", "3", "4.0", "02.01.2020"]] 1 =
      ([], [], some Err.valueError) ∧
    dbGet
        (save_to_db (fun _ _ => true) ⟨2019, 1, 1⟩ []
          [["id", "order", "cost", "date"],
           ["x", "1", "1.0", "01.01.2020"],
           ["2", "3", "4.0", "02.01.2020"]] 1).1 2 = none :=
  ⟨rfl, rfl⟩

/-- C3 (amended): a batch containing one malformed row persists exactly the
valid rows that precede it; the malformed row's `MalformedField` failure
aborts the remainder of the cycle, leaving the store as the preceding rows
committed it. -/
theorem malformed_row_aborts (nk : ℤ → Date → Bool) (td : Date) (rate : ℚ)
    (db : List Test) (before : List (List String)) (bad : List String)
    (after : List (List String)) (db1 : List Test) (evs1 : List Event)
    (e : Err) (h1 : processRows nk td rate db before = (db1, evs1, none))
    (h2 : Schema.init rate bad = .error e) :
    processRows nk td rate db (before ++ bad :: after) = (db1, evs1, some e) ∧
    ∀ (i : ℤ) (u : Test), dbGet db1 i = some u →
      dbGet (processRows nk td rate db (before ++ bad :: after)).1 i =
        some u := by
  have ha := processRows_append nk td rate before (bad :: after) db
  rw [h1] at ha
  simp only [] at ha
  rw [processRows_malformed_abort nk td rate bad after db1 e h2] at ha
  simp only [List.append_nil] at ha
  refine ⟨ha, ?_⟩
  intro i u hu
  rw [ha]
  exact hu

/-- Witness for C3 (amended): the counterexample batch, split around its
malformed row. -/
theorem malformed_row_aborts_witness :
    processRows (fun _ _ => true) ⟨2019, 1, 1⟩ 1 []
        (([] : List (List String)) ++
          ["x", "1", "1.0", "01.01.2020"] :: [["2", "3", "4.0", "02.01.2020"]]) =
      ([], [], some Err.valueError) :=
  (malformed_row_aborts (fun _ _ => true) ⟨2019, 1, 1⟩ 1 [] []
    ["x", "1", "1.0", "01.01.2020"] [["2", "3", "4.0", "02.01.2020"]] [] []
    Err.valueError rfl rfl).1


/-- C6 counterexample: `float()` happily parses a negative cost and no
negativity check follows, so the record is normalized and persisted with a
negative `costUsd`. -/
theorem negative_cost_accepted :
    Schema.init 1 ["1", "1", "-5.0", "01.01.2020"] =
      .ok { id := 1, order_id := 1, cost_usd := -5, cost_rur := -5,
            delivery_date := ⟨2020, 1, 1⟩ } ∧
    dbGet (dbMergeO []
        ({ id := 1, order_id := 1, cost_usd := -5, cost_rur := -5,
           delivery_date := ⟨2020, 1, 1⟩ } : Schema)).1 1 =
      some { id := 1, order_id := 1, cost_usd := -5, cost_rur := -5,
             delivery_date := ⟨2020, 1, 1⟩, is_notified := false } ∧
    (-5 : ℚ) < 0 := by
  refine ⟨?_, rfl, by norm_num⟩
  rw [schema_init_ok 1 "1" "1" "-5.0" "01.01.2020" 1 1 (-5) ⟨2020, 1, 1⟩
    (by decide) (by decide) pyFloat_neg5 (by decide)]
  have h2 : ((-5 : ℚ) * 1) = ((-5 : ℤ) : ℚ) := by norm_num
  rw [h2, pyRound2_intCast]
  norm_num

/-- C6 (amended): on a row with at least three fields, a non-numeric cost
field makes normalization fail with `MalformedField` (`ValueError`); there
is no negativity check, so a cost that parses to a negative number is
accepted and persisted. -/
theorem cost_nonnumeric_fails (rate : ℚ) (args : List String)
    (h3 : 3 ≤ args.length) (hc : pyFloat (args.getD 2 "") = none) :
    Schema.init rate args = .error .valueError := by
  rcases args with _ | ⟨a0, args⟩
  · simp at h3
  rcases args with _ | ⟨a1, args⟩
  · simp at h3
  rcases args with _ | ⟨a2, rest⟩
  · simp at h3
  simp at hc
  cases h0 : pyInt a0 with
  | none => simp [Schema.init, arg, h0]
  | some i =>
    cases h1 : pyInt a1 with
    | none => simp [Schema.init, arg, h0, h1]
    | some oid => simp [Schema.init, arg, h0, h1, hc]

/-- Witness for C6 (amended): a non-numeric cost field. -/
theorem cost_nonnumeric_fails_witness :
    Schema.init 1 ["1", "1", "abc", "01.01.2020"] = .error .valueError :=
  cost_nonnumeric_fails 1 ["1", "1", "abc", "01.01.2020"] (by decide) rfl

/-- C10 counterexample: a one-field row whose single field is non-numeric
fails with `ValueError` (raised by `int(args[0])`), not with an index
error, although the row has fewer than four fields. -/
theorem short_row_value_error :
    Schema.init 1 ["x"] = .error .valueError ∧
    (["x"] : List String).length < 4 ∧
    Err.valueError ≠ Err.indexError :=
  ⟨rfl, by decide, by decide⟩

/-- C10 (amended): normalization reads only the first four fields, so extra
fields are silently ignored; a row with fewer than four fields whose present
fields all parse fails with an `IndexError`, but when an earlier present
field is malformed it fails with `ValueError` (`MalformedField`) instead,
because the fields are evaluated left to right. -/
theorem first_four_fields :
    (∀ (rate : ℚ) (row : List String),
      Schema.init rate row = Schema.init rate (row.take 4)) ∧
    (∀ (rate : ℚ) (row : List String), row.length < 4 →
      (1 ≤ row.length → (pyInt (row.getD 0 "")).isSome = true) →
      (2 ≤ row.length → (pyInt (row.getD 1 "")).isSome = true) →
      (3 ≤ row.length → (pyFloat (row.getD 2 "")).isSome = true) →
      Schema.init rate row = .error .indexError) := by
  constructor
  · intro rate row
    have h0 : arg (row.take 4) 0 = arg row 0 := by
      simp [arg, List.getElem?_take_of_lt (by omega : (0 : ℕ) < 4)]
    have h1 : arg (row.take 4) 1 = arg row 1 := by
      simp [arg, List.getElem?_take_of_lt (by omega : (1 : ℕ) < 4)]
    have h2 : arg (row.take 4) 2 = arg row 2 := by
      simp [arg, List.getElem?_take_of_lt (by omega : (2 : ℕ) < 4)]
    have h3 : arg (row.take 4) 3 = arg row 3 := by
      simp [arg, List.getElem?_take_of_lt (by omega : (3 : ℕ) < 4)]
    unfold Schema.init
    rw [h0, h1, h2, h3]
  · intro rate row hlen hp0 hp1 hp2
    rcases row with _ | ⟨a0, row⟩
    · rfl
    rcases row with _ | ⟨a1, row⟩
    · obtain ⟨i, hi⟩ := Option.isSome_iff_exists.mp (hp0 (by simp))
      simp at hi
      simp [Schema.init, arg, hi]
    rcases row with _ | ⟨a2, row⟩
    · obtain ⟨i, hi⟩ := Option.isSome_iff_exists.mp (hp0 (by simp))
      obtain ⟨oid, hoid⟩ := Option.isSome_iff_exists.mp (hp1 (by simp))
      simp at hi hoid
      simp [Schema.init, arg, hi, hoid]
    rcases row with _ | ⟨a3, row⟩
    · obtain ⟨i, hi⟩ := Option.isSome_iff_exists.mp (hp0 (by simp))
      obtain ⟨oid, hoid⟩ := Option.isSome_iff_exists.mp (hp1 (by simp))
      obtain ⟨c, hc⟩ := Option.isSome_iff_exists.mp (hp2 (by simp))
      simp at hi hoid hc
      simp [Schema.init, arg, hi, hoid, hc]
    · simp only [List.length_cons] at hlen
      omega

/-- Witness for C10: a parsable one-field row gives an index error, and a
five-field row normalizes like its first four fields. -/
theorem first_four_fields_witness :
    Schema.init 1 ["1"] = .error .indexError ∧
    Schema.init 1 ["7", "1001", "50.00", "01.01.2020", "extra"] =
      Schema.init 1 (["7", "1001", "50.00", "01.01.2020", "extra"].take 4) := by
  constructor
  · exact first_four_fields.2 1 ["1"] (by decide) (fun _ => by decide)
      (fun h => absurd h (by decide)) (fun h => absurd h (by decide))
  · exact first_four_fields.1 1 ["7", "1001", "50.00", "01.01.2020", "extra"]
